import Mathlib

/-!
Shallow embedding of the AI-hirehub backend (`src/backend/server.py`).

Strings are modelled as `List Char` (`Str`).  The document store is a `DB`
record of three lists (`users`, `jobs`, `applications`); `find_one` is
`List.find?` and `insert_one` appends at the end, matching MongoDB's
natural (insertion) order for unindexed queries.

Server-side nondeterminism (uuid4 ids, `datetime.now`) is passed in as
explicit `nid` / `now` arguments.  Timestamps are carried as their
ISO-8601 text throughout, which is exactly how they live in the store
(`prepare_for_mongo` serialises datetimes with `isoformat`).
-/

deriving instance DecidableEq for Except

namespace HireHub

abbrev Str := List Char

def chars (s : String) : Str := s.toList

/-! ### Model of the timestamp read heuristic

`parse_from_mongo` (server.py lines 36-44) replaces every stored string
value that contains the character `T` and that
`datetime.fromisoformat(value.replace('Z', '+00:00'))` accepts by a
datetime object.  Modelled from the spec: "timestamps stored as ISO-8601
text and parsed back heuristically (any string containing 'T' is
attempted as a timestamp on read)"; the Python-stdlib recogniser itself
is not part of the repository, so we model the documented
`fromisoformat` grammar
`YYYY-MM-DD[*HH[:MM[:SS[.fff[fff]]]][+HH:MM[:SS[.ffffff]]]]`
(the separator `*` is an arbitrary single character) with calendar
range checks. -/

def digitVal (c : Char) : Nat := c.toNat - 48

def d2v (a b : Char) : Nat := 10 * digitVal a + digitVal b

def isLeap (y : Nat) : Bool := y % 4 == 0 && (y % 100 != 0 || y % 400 == 0)

def daysIn (y m : Nat) : Nat :=
  if m = 2 then (if isLeap y then 29 else 28)
  else if m = 4 ∨ m = 6 ∨ m = 9 ∨ m = 11 then 30
  else 31

/-- Trailing part of a timezone offset: nothing, or seconds with an
optional 6-digit fraction. -/
def isoTzSecFrac : Str → Bool
  | [] => true
  | '.' :: fs => fs.length = 6 && fs.all Char.isDigit
  | _ => false

def isoTzSec : Str → Bool
  | [] => true
  | ':' :: s1 :: s2 :: rest =>
      s1.isDigit && s2.isDigit && d2v s1 s2 < 60 && isoTzSecFrac rest
  | _ => false

/-- A timezone offset `+HH:MM[:SS[.ffffff]]` (or nothing). -/
def isoTz : Str → Bool
  | [] => true
  | c :: h1 :: h2 :: ':' :: m1 :: m2 :: rest =>
      (c = '+' || c = '-') && h1.isDigit && h2.isDigit && m1.isDigit && m2.isDigit &&
      d2v h1 h2 < 24 && d2v m1 m2 < 60 && isoTzSec rest
  | _ => false

/-- After `SS`: an optional fraction of exactly 3 or 6 digits, then an
optional timezone offset. -/
def isoSecTail : Str → Bool
  | '.' :: rest =>
      let fr := rest.takeWhile Char.isDigit
      (fr.length = 3 || fr.length = 6) && isoTz (rest.dropWhile Char.isDigit)
  | rest => isoTz rest

def isoMinTail : Str → Bool
  | ':' :: s1 :: s2 :: rest =>
      s1.isDigit && s2.isDigit && d2v s1 s2 < 60 && isoSecTail rest
  | rest => isoTz rest

def isoHourTail : Str → Bool
  | ':' :: m1 :: m2 :: rest =>
      m1.isDigit && m2.isDigit && d2v m1 m2 < 60 && isoMinTail rest
  | rest => isoTz rest

def isoTime : Str → Bool
  | h1 :: h2 :: rest => h1.isDigit && h2.isDigit && d2v h1 h2 < 24 && isoHourTail rest
  | _ => false

/-- Does `fromisoformat` accept the string?  A date `YYYY-MM-DD` with
valid calendar ranges, optionally followed by one arbitrary separator
character and a time. -/
def isoAccepts : Str → Bool
  | y1 :: y2 :: y3 :: y4 :: '-' :: m1 :: m2 :: '-' :: d1 :: d2c :: rest =>
      ([y1, y2, y3, y4, m1, m2, d1, d2c].all Char.isDigit) &&
      (let y := 1000 * digitVal y1 + 100 * digitVal y2 + 10 * digitVal y3 + digitVal y4
       let mo := d2v m1 m2
       let da := d2v d1 d2c
       1 ≤ y && 1 ≤ mo && mo ≤ 12 && 1 ≤ da && da ≤ daysIn y mo) &&
      (match rest with
       | [] => true
       | _ :: t => isoTime t)
  | _ => false

/-- The Python code first rewrites `value.replace('Z', '+00:00')`. -/
def replaceZ (v : Str) : Str :=
  v.foldr (fun c acc => if c = 'Z' then '+' :: '0' :: '0' :: ':' :: '0' :: '0' :: acc else c :: acc) []

/-- The read heuristic fires on a stored string value: it contains `T`
and `fromisoformat` accepts it after Z-replacement (server.py 39-41). -/
def heurDt (v : Str) : Bool := v.contains 'T' && isoAccepts (replaceZ v)

/-- Modelled from the spec: the response-model timestamp coercion (a
`datetime` response field fed a plain string).  Pydantic v1 accepts
ISO-8601-shaped strings and numeric unix timestamps; the library is not
part of the repository, so we reuse the ISO recogniser plus all-digit
strings as its model. -/
def pydDtOk (v : Str) : Bool := isoAccepts v || (!v.isEmpty && v.all Char.isDigit)

/-! ### Field validators for documents read back from the store

A stored string value that the heuristic turned into a datetime makes a
`str`-typed response field fail validation (HTTP 500); an untouched
string passes through unchanged.  A `datetime`-typed response field
accepts either the converted value or a string the response model can
coerce. -/

def vStrF (v : Str) : Except Nat Str :=
  if heurDt v then .error 500 else .ok v

def vOptStrF : Option Str → Except Nat (Option Str)
  | none => .ok none
  | some v => if heurDt v then .error 500 else .ok (some v)

def vDtF (v : Str) : Except Nat Str :=
  if heurDt v then .ok v else if pydDtOk v then .ok v else .error 500

def optInert : Option Str → Bool
  | none => true
  | some v => !heurDt v

/-! ### Data model (server.py lines 47-150) -/

structure UserDoc where
  id : Str
  email : Str
  password : Str
  name : Str
  user_type : Str
  profile_image : Option Str
  title : Option Str
  location : Option Str
  bio : Option Str
  company : Option Str
  skills : List Str
  experience : Option Str
  education : Option Str
  resume : Option Str
  created_at : Str
deriving DecidableEq

structure UserCreate where
  email : Str
  password : Str
  name : Str
  user_type : Str
deriving DecidableEq

structure UserLogin where
  email : Str
  password : Str
deriving DecidableEq

structure UserResponse where
  id : Str
  email : Str
  name : Str
  user_type : Str
  profile_image : Option Str
  title : Option Str
  location : Option Str
  bio : Option Str
  company : Option Str
  skills : List Str
  experience : Option Str
  education : Option Str
  created_at : Str
deriving DecidableEq

structure JobDoc where
  id : Str
  title : Str
  company : Str
  location : Str
  job_type : Str
  salary_range : Option Str
  description : Str
  requirements : List Str
  benefits : List Str
  employer_id : Str
  posted_at : Str
  expires_at : Option Str
  status : Str
deriving DecidableEq

structure JobCreate where
  title : Str
  company : Str
  location : Str
  job_type : Str
  salary_range : Option Str
  description : Str
  requirements : List Str
  benefits : List Str
deriving DecidableEq

structure JobResponse where
  id : Str
  title : Str
  company : Str
  location : Str
  job_type : Str
  salary_range : Option Str
  description : Str
  requirements : List Str
  benefits : List Str
  employer_id : Str
  posted_at : Str
  status : Str
deriving DecidableEq

structure AppDoc where
  id : Str
  job_id : Str
  applicant_id : Str
  cover_letter : Option Str
  status : Str
  applied_at : Str
  notes : Option Str
deriving DecidableEq

structure ApplicationCreate where
  job_id : Str
  cover_letter : Option Str
deriving DecidableEq

structure AppResponse where
  id : Str
  job_id : Str
  applicant_id : Str
  cover_letter : Option Str
  status : Str
  applied_at : Str
  job_title : Option Str
  company : Option Str
  applicant_name : Option Str
deriving DecidableEq

structure DB where
  users : List UserDoc
  jobs : List JobDoc
  applications : List AppDoc
deriving DecidableEq

/-! ### Model of MongoDB `$regex` with `$options: "i"`

The listing endpoint (server.py 214-222) passes the caller's `search`
and `location` strings straight to `$regex` with the case-insensitive
option.  Modelled from the spec: the regex engine lives in MongoDB, not
in the repository; we embed the PCRE fragment made of literals, `.`,
`*`, `+`, `?`, alternation `|`, groups `(...)` and escaped punctuation
`\c`, matched anywhere in the field (unanchored) with ASCII case
folding.  Character classes, brace quantifiers, anchors and
alphanumeric escape classes are outside the fragment; patterns using
them are reported as an error by the embedded endpoint. -/

inductive Regex where
  | emp : Regex
  | eps : Regex
  | chr (c : Char) : Regex
  | dot : Regex
  | comp (r s : Regex) : Regex
  | alt (r s : Regex) : Regex
  | star (r : Regex) : Regex
deriving DecidableEq

namespace Regex

def nullable : Regex → Bool
  | .emp => false
  | .eps => true
  | .chr _ => false
  | .dot => false
  | .comp r s => nullable r && nullable s
  | .alt r s => nullable r || nullable s
  | .star _ => true

/-- Brzozowski derivative; pattern characters compare case-insensitively
(`$options: "i"`, ASCII folding) and `.` matches anything but a newline. -/
def deriv : Regex → Char → Regex
  | .emp, _ => .emp
  | .eps, _ => .emp
  | .chr c, d => if c.toLower = d.toLower then .eps else .emp
  | .dot, d => if d = '\n' then .emp else .eps
  | .comp r s, d =>
      if nullable r then .alt (.comp (deriv r d) s) (deriv s d)
      else .comp (deriv r d) s
  | .alt r s, d => .alt (deriv r d) (deriv s d)
  | .star r, d => .comp (deriv r d) (.star r)

def rmatch (r : Regex) : Str → Bool
  | [] => nullable r
  | c :: cs => rmatch (deriv r c) cs

end Regex

/-- Unanchored search: the regex matches some contiguous piece of the
text (Mongo `$regex` semantics). -/
def rexSearch (r : Regex) (t : Str) : Bool :=
  t.tails.any fun suf => suf.inits.any fun pre => r.rmatch pre

/-- Regex metacharacters of the modelled fragment: a pattern free of
them is a literal string. -/
def metaChar (c : Char) : Bool :=
  c = '.' || c = '*' || c = '+' || c = '?' || c = '|' || c = '(' || c = ')' ||
  c = '\\' || c = '[' || c = ']' || c = '{' || c = '}' || c = '^' || c = '$'

def finishCat (cats : List Regex) : Regex :=
  cats.foldl (fun acc r => .comp r acc) .eps

def finishAlt (alts cats : List Regex) : Regex :=
  alts.foldl (fun acc r => .alt r acc) (finishCat cats)

/-- Pattern compiler for the modelled fragment.  `alts` and `cats` hold
the alternatives and concatenation items of the current group, newest
first; the stack holds the enclosing groups. -/
def pLoop : Str → List Regex → List Regex → List (List Regex × List Regex) → Option Regex
  | [], alts, cats, [] => some (finishAlt alts cats)
  | [], _, _, _ :: _ => none
  | c :: rest, alts, cats, stk =>
    if c = '(' then pLoop rest [] [] ((alts, cats) :: stk)
    else if c = ')' then
      match stk with
      | [] => none
      | (ua, uc) :: stk2 => pLoop rest ua (finishAlt alts cats :: uc) stk2
    else if c = '|' then pLoop rest (finishCat cats :: alts) [] stk
    else if c = '*' then
      match cats with
      | [] => none
      | r :: rs => pLoop rest alts (.star r :: rs) stk
    else if c = '+' then
      match cats with
      | [] => none
      | r :: rs => pLoop rest alts (.comp r (.star r) :: rs) stk
    else if c = '?' then
      match cats with
      | [] => none
      | r :: rs => pLoop rest alts (.alt r .eps :: rs) stk
    else if c = '\\' then
      match rest with
      | [] => none
      | d :: rest2 => if d.isAlphanum then none else pLoop rest2 alts (.chr d :: cats) stk
    else if c = '[' ∨ c = ']' ∨ c = '{' ∨ c = '}' ∨ c = '^' ∨ c = '$' then none
    else if c = '.' then pLoop rest alts (.dot :: cats) stk
    else pLoop rest alts (.chr c :: cats) stk

def parseRegex (s : Str) : Option Regex := pLoop s [] [] []

/-- The regex denoted by a metacharacter-free pattern. -/
def litR : Str → Regex
  | [] => .eps
  | c :: cs => .comp (.chr c) (litR cs)

/-- Case-insensitive substring occurrence, the spec's description of
`search` and `location` matching. -/
def ciInf (s t : Str) : Bool :=
  decide ((s.map Char.toLower) <:+: (t.map Char.toLower))

/-! ### Sorting and traversal helpers -/

/-- Lexicographic byte order on stored strings (how Mongo compares the
ISO-8601 timestamp text it sorts on). -/
def strLt : Str → Str → Bool
  | [], [] => false
  | [], _ :: _ => true
  | _ :: _, [] => false
  | a :: as, b :: bs => a.toNat < b.toNat || (a = b && strLt as bs)

/-- Insert into a list kept in descending `key` order. -/
def insertDesc (key : α → Str) (x : α) : List α → List α
  | [] => [x]
  | y :: ys => if strLt (key y) (key x) then x :: y :: ys else y :: insertDesc key x ys

/-- Descending sort by `key` (`.sort(field, -1)`). -/
def sortDesc (key : α → Str) (l : List α) : List α :=
  l.foldr (insertDesc key) []

/-- Sequential effectful map: the Python list comprehensions turn each
document into a response model in order, and the first validation
failure aborts the whole request. -/
def exMapM (f : α → Except Nat β) : List α → Except Nat (List β)
  | [] => .ok []
  | x :: xs => do
    let y ← f x
    let ys ← exMapM f xs
    .ok (y :: ys)

/-! ### Response construction (parse_from_mongo + response models) -/

/-- Public view of a user: `UserResponse` keeps every field except
`password` and `resume` (server.py 74-87). -/
def pubView (u : UserDoc) : UserResponse :=
  { id := u.id, email := u.email, name := u.name, user_type := u.user_type,
    profile_image := u.profile_image, title := u.title, location := u.location,
    bio := u.bio, company := u.company, skills := u.skills,
    experience := u.experience, education := u.education, created_at := u.created_at }

/-- Validate a stored user document into a `UserResponse` after the
read heuristic, field by field (str fields reject converted values;
`created_at` accepts a converted value or a coercible string; extra
keys — `password`, `resume`, `_id` — are ignored by the model). -/
def vUserResponse (u : UserDoc) : Except Nat UserResponse := do
  let i ← vStrF u.id
  let e ← vStrF u.email
  let n ← vStrF u.name
  let ut ← vStrF u.user_type
  let a1 ← vOptStrF u.profile_image
  let a2 ← vOptStrF u.title
  let a3 ← vOptStrF u.location
  let a4 ← vOptStrF u.bio
  let a5 ← vOptStrF u.company
  let a6 ← vOptStrF u.experience
  let a7 ← vOptStrF u.education
  let ca ← vDtF u.created_at
  .ok { id := i, email := e, name := n, user_type := ut, profile_image := a1,
        title := a2, location := a3, bio := a4, company := a5, skills := u.skills,
        experience := a6, education := a7, created_at := ca }

/-- All conditions under which reading the user back succeeds. -/
def userReadOk (u : UserDoc) : Bool :=
  !heurDt u.id && !heurDt u.email && !heurDt u.name && !heurDt u.user_type &&
  optInert u.profile_image && optInert u.title && optInert u.location &&
  optInert u.bio && optInert u.company && optInert u.experience &&
  optInert u.education && (heurDt u.created_at || pydDtOk u.created_at)

/-- Projection of a stored job document onto the response model. -/
def jobView (j : JobDoc) : JobResponse :=
  { id := j.id, title := j.title, company := j.company, location := j.location,
    job_type := j.job_type, salary_range := j.salary_range, description := j.description,
    requirements := j.requirements, benefits := j.benefits,
    employer_id := j.employer_id, posted_at := j.posted_at, status := j.status }

def vJobResponse (j : JobDoc) : Except Nat JobResponse := do
  let i ← vStrF j.id
  let t ← vStrF j.title
  let c ← vStrF j.company
  let l ← vStrF j.location
  let jt ← vStrF j.job_type
  let sr ← vOptStrF j.salary_range
  let d ← vStrF j.description
  let e ← vStrF j.employer_id
  let p ← vDtF j.posted_at
  let st ← vStrF j.status
  .ok { id := i, title := t, company := c, location := l, job_type := jt,
        salary_range := sr, description := d, requirements := j.requirements,
        benefits := j.benefits, employer_id := e, posted_at := p, status := st }

def jobReadOk (j : JobDoc) : Bool :=
  !heurDt j.id && !heurDt j.title && !heurDt j.company && !heurDt j.location &&
  !heurDt j.job_type && optInert j.salary_range && !heurDt j.description &&
  !heurDt j.employer_id && (heurDt j.posted_at || pydDtOk j.posted_at) &&
  !heurDt j.status

/-! ### Endpoints (server.py 153-339)

Every mutating endpoint returns its response together with the new
store; read-only endpoints return the response alone. -/

/-- POST /auth/register (server.py 153-165). -/
def register_user (db : DB) (d : UserCreate) (nid now : Str) :
    (Except Nat UserResponse) × DB :=
  match db.users.find? (fun u => u.email = d.email) with
  | some _ => (.error 400, db)
  | none =>
      let u : UserDoc :=
        { id := nid, email := d.email, password := d.password, name := d.name,
          user_type := d.user_type, profile_image := none, title := none,
          location := none, bio := none, company := none, skills := [],
          experience := none, education := none, resume := none, created_at := now }
      (.ok (pubView u), { db with users := db.users ++ [u] })

/-- POST /auth/login (server.py 167-174). -/
def login_user (db : DB) (d : UserLogin) : Except Nat UserResponse :=
  match db.users.find? (fun u => u.email = d.email && u.password = d.password) with
  | none => .error 401
  | some u => vUserResponse u

/-- GET /users/{user_id} (server.py 177-184). -/
def get_user (db : DB) (uid : Str) : Except Nat UserResponse :=
  match db.users.find? (fun u => u.id = uid) with
  | none => .error 404
  | some u => vUserResponse u

/-- Replace the first list element satisfying `p` by `f` of it. -/
def updateFirst (p : α → Bool) (f : α → α) : List α → List α
  | [] => []
  | x :: xs => if p x then f x :: xs else x :: updateFirst p f xs

/-- PUT /users/{user_id}/profile (server.py 186-196).  The open-ended
`$set` payload is modelled as a function on the stored document. -/
def update_user_profile (db : DB) (uid : Str) (patch : UserDoc → UserDoc) :
    (Except Nat Unit) × DB :=
  match db.users.find? (fun u => u.id = uid) with
  | none => (.error 404, db)
  | some _ =>
      (.ok (), { db with users := updateFirst (fun u => u.id = uid) patch db.users })

/-- POST /jobs (server.py 199-207). -/
def create_job (db : DB) (d : JobCreate) (eid nid now : Str) : JobResponse × DB :=
  let doc : JobDoc :=
    { id := nid, title := d.title, company := d.company, location := d.location,
      job_type := d.job_type, salary_range := d.salary_range,
      description := d.description, requirements := d.requirements,
      benefits := d.benefits, employer_id := eid, posted_at := now,
      expires_at := none, status := chars "active" }
  ({ id := nid, title := d.title, company := d.company, location := d.location,
     job_type := d.job_type, salary_range := d.salary_range,
     description := d.description, requirements := d.requirements,
     benefits := d.benefits, employer_id := eid, posted_at := now,
     status := chars "active" },
   { db with jobs := db.jobs ++ [doc] })

/-- Compile an optional `$regex` filter.  A missing or empty (falsy)
parameter adds no clause; a pattern outside the modelled fragment is
reported as an error. -/
def compileF : Option Str → Except Nat (Option Regex)
  | none => .ok none
  | some s =>
      if s.isEmpty then .ok none
      else match parseRegex s with
        | some r => .ok (some r)
        | none => .error 500

/-- The effective `job_type` clause: Python's `if job_type:` skips the
filter for a missing or empty value. -/
def jtF : Option Str → Option Str
  | none => none
  | some t => if t.isEmpty then none else some t

/-- The search clause ORs the regex across title, company, description. -/
def searchHit (r : Regex) (j : JobDoc) : Bool :=
  rexSearch r j.title || rexSearch r j.company || rexSearch r j.description

/-- The query document built by get_jobs (server.py 212-225). -/
def matchesQuery (sR lR : Option Regex) (jt : Option Str) (j : JobDoc) : Bool :=
  j.status = chars "active" &&
  (match sR with
   | none => true
   | some r => searchHit r j) &&
  (match lR with
   | none => true
   | some r => rexSearch r j.location) &&
  (match jt with
   | none => true
   | some t => j.job_type = t)

/-- GET /jobs (server.py 209-229).  Mongo applies the sort before skip
and limit regardless of the cursor-method chaining order; `limit 0`
means no limit. -/
def get_jobs (db : DB) (skip limit : Nat) (search location job_type : Option Str) :
    Except Nat (List JobResponse) := do
  let sR ← compileF search
  let lR ← compileF location
  let filtered := db.jobs.filter (matchesQuery sR lR (jtF job_type))
  let dropped := (sortDesc (fun j => j.posted_at) filtered).drop skip
  let page := if limit = 0 then dropped else dropped.take limit
  exMapM vJobResponse page

/-- GET /jobs/{job_id} (server.py 231-238). -/
def get_job (db : DB) (jid : Str) : Except Nat JobResponse :=
  match db.jobs.find? (fun j => j.id = jid) with
  | none => .error 404
  | some j => vJobResponse j

/-- GET /jobs/employer/{employer_id} (server.py 240-244): all of the
employer's jobs, any status, newest first. -/
def get_employer_jobs (db : DB) (eid : Str) : Except Nat (List JobResponse) :=
  exMapM vJobResponse (sortDesc (fun j => j.posted_at)
    (db.jobs.filter (fun j => j.employer_id = eid)))

/-- POST /applications (server.py 247-275).  The duplicate pre-check
runs first; the two enrichment lookups are best-effort and happen after
the insert (on a store whose jobs and users are unchanged). -/
def apply_for_job (db : DB) (d : ApplicationCreate) (aid nid now : Str) :
    (Except Nat AppResponse) × DB :=
  match db.applications.find? (fun a => a.job_id = d.job_id && a.applicant_id = aid) with
  | some _ => (.error 400, db)
  | none =>
      let doc : AppDoc :=
        { id := nid, job_id := d.job_id, applicant_id := aid,
          cover_letter := d.cover_letter, status := chars "pending",
          applied_at := now, notes := none }
      let db2 : DB := { db with applications := db.applications ++ [doc] }
      let job := db2.jobs.find? (fun j => j.id = d.job_id)
      let applicant := db2.users.find? (fun u => u.id = aid)
      (.ok { id := nid, job_id := d.job_id, applicant_id := aid,
             cover_letter := d.cover_letter, status := chars "pending",
             applied_at := now, job_title := job.map (fun j => j.title),
             company := job.map (fun j => j.company),
             applicant_name := applicant.map (fun u => u.name) }, db2)

/-- Build one row of GET /applications/user/{user_id}: parse the stored
application, enrich with the job looked up by the (parsed) job id
(raw document fields, no heuristic on the enrichment values). -/
def enrichUserApp (db : DB) (a : AppDoc) : Except Nat AppResponse := do
  let i ← vStrF a.id
  let ji ← vStrF a.job_id
  let ai ← vStrF a.applicant_id
  let cl ← vOptStrF a.cover_letter
  let st ← vStrF a.status
  let ap ← vDtF a.applied_at
  let job := db.jobs.find? (fun j => j.id = a.job_id)
  .ok { id := i, job_id := ji, applicant_id := ai, cover_letter := cl, status := st,
        applied_at := ap, job_title := job.map (fun j => j.title),
        company := job.map (fun j => j.company), applicant_name := none }

/-- GET /applications/user/{user_id} (server.py 277-292). -/
def get_user_applications (db : DB) (uid : Str) : Except Nat (List AppResponse) :=
  exMapM (enrichUserApp db) (sortDesc (fun a => a.applied_at)
    (db.applications.filter (fun a => a.applicant_id = uid)))

/-- Build one row of GET /applications/job/{job_id}: enrich with the
applicant's name and (redundantly, per row) the job's title/company. -/
def enrichJobApp (db : DB) (jid : Str) (a : AppDoc) : Except Nat AppResponse := do
  let i ← vStrF a.id
  let ji ← vStrF a.job_id
  let ai ← vStrF a.applicant_id
  let cl ← vOptStrF a.cover_letter
  let st ← vStrF a.status
  let ap ← vDtF a.applied_at
  let applicant := db.users.find? (fun u => u.id = a.applicant_id)
  let job := db.jobs.find? (fun j => j.id = jid)
  .ok { id := i, job_id := ji, applicant_id := ai, cover_letter := cl, status := st,
        applied_at := ap, job_title := job.map (fun j => j.title),
        company := job.map (fun j => j.company),
        applicant_name := applicant.map (fun u => u.name) }

/-- GET /applications/job/{job_id} (server.py 294-312). -/
def get_job_applications (db : DB) (jid : Str) : Except Nat (List AppResponse) :=
  exMapM (enrichJobApp db jid) (sortDesc (fun a => a.applied_at)
    (db.applications.filter (fun a => a.job_id = jid)))

/-- Response payloads of the surface. -/
inductive Res where
  | userR (u : UserResponse)
  | msgR
  | jobR (j : JobResponse)
  | jobsR (l : List JobResponse)
  | appR (a : AppResponse)
  | appsR (l : List AppResponse)
  | seekerR (total pending shortlisted : Nat)
  | employerR (total_jobs active_jobs total_applications : Nat)
deriving DecidableEq

/-- GET /dashboard/stats (server.py 315-339); anything other than
`job_seeker` takes the employer branch. -/
def get_dashboard_stats (db : DB) (uid utype : Str) : Res :=
  if utype = chars "job_seeker" then
    .seekerR
      (db.applications.filter (fun a => a.applicant_id = uid)).length
      (db.applications.filter
        (fun a => a.applicant_id = uid && a.status = chars "pending")).length
      (db.applications.filter
        (fun a => a.applicant_id = uid && a.status = chars "shortlisted")).length
  else
    let mine := db.jobs.filter (fun j => j.employer_id = uid)
    let job_ids := mine.map (fun j => j.id)
    .employerR
      mine.length
      (db.jobs.filter (fun j => j.employer_id = uid && j.status = chars "active")).length
      (if job_ids.isEmpty then 0
       else (db.applications.filter (fun a => job_ids.contains a.job_id)).length)

/-- One request to the surface.  Server-generated ids and timestamps
are explicit arguments. -/
inductive Op where
  | register (d : UserCreate) (nid now : Str)
  | login (d : UserLogin)
  | getUser (uid : Str)
  | updateProfile (uid : Str) (patch : UserDoc → UserDoc)
  | createJob (d : JobCreate) (eid nid now : Str)
  | getJobs (skip limit : Nat) (search location job_type : Option Str)
  | getJob (jid : Str)
  | getEmployerJobs (eid : Str)
  | applyJob (d : ApplicationCreate) (aid nid now : Str)
  | getUserApplications (uid : Str)
  | getJobApplications (jid : Str)
  | dashboardStats (uid utype : Str)

/-- Run one request against the store. -/
def runOp (db : DB) : Op → (Except Nat Res) × DB
  | .register d nid now =>
      let (r, db2) := register_user db d nid now
      (r.map Res.userR, db2)
  | .login d => ((login_user db d).map Res.userR, db)
  | .getUser uid => ((get_user db uid).map Res.userR, db)
  | .updateProfile uid patch =>
      let (r, db2) := update_user_profile db uid patch
      (r.map (fun _ => Res.msgR), db2)
  | .createJob d eid nid now =>
      let (r, db2) := create_job db d eid nid now
      (.ok (Res.jobR r), db2)
  | .getJobs skip limit s l jt => ((get_jobs db skip limit s l jt).map Res.jobsR, db)
  | .getJob jid => ((get_job db jid).map Res.jobR, db)
  | .getEmployerJobs eid => ((get_employer_jobs db eid).map Res.jobsR, db)
  | .applyJob d aid nid now =>
      let (r, db2) := apply_for_job db d aid nid now
      (r.map Res.appR, db2)
  | .getUserApplications uid => ((get_user_applications db uid).map Res.appsR, db)
  | .getJobApplications jid => ((get_job_applications db jid).map Res.appsR, db)
  | .dashboardStats uid utype => (.ok (get_dashboard_stats db uid utype), db)

/-! ### Helper lemmas -/

@[simp] theorem exBind_ok (a : α) (f : α → Except Nat β) :
    (Except.ok a >>= f) = f a := rfl

@[simp] theorem exBind_error (e : Nat) (f : α → Except Nat β) :
    ((Except.error e : Except Nat α) >>= f) = Except.error e := rfl

theorem vOptStrF_eq (o : Option Str) :
    vOptStrF o = if optInert o then .ok o else .error 500 := by
  cases o with
  | none => rfl
  | some v =>
      simp only [vOptStrF, optInert]
      by_cases h : heurDt v = true <;> simp [h]

theorem vDtF_eq (v : Str) :
    vDtF v = if heurDt v || pydDtOk v then .ok v else .error 500 := by
  simp only [vDtF]
  cases h : heurDt v <;> cases h2 : pydDtOk v <;> simp [h, h2]

theorem vUserResponse_eq (u : UserDoc) :
    vUserResponse u = if userReadOk u then Except.ok (pubView u) else Except.error 500 := by
  by_cases h1 : heurDt u.id = true
  · simp [vUserResponse, vStrF, userReadOk, h1]
  · by_cases h2 : heurDt u.email = true
    · simp [vUserResponse, vStrF, userReadOk, h1, h2]
    · by_cases h3 : heurDt u.name = true
      · simp [vUserResponse, vStrF, userReadOk, h1, h2, h3]
      · by_cases h4 : heurDt u.user_type = true
        · simp [vUserResponse, vStrF, userReadOk, h1, h2, h3, h4]
        · by_cases h5 : optInert u.profile_image = true
          · by_cases h6 : optInert u.title = true
            · by_cases h7 : optInert u.location = true
              · by_cases h8 : optInert u.bio = true
                · by_cases h9 : optInert u.company = true
                  · by_cases h10 : optInert u.experience = true
                    · by_cases h11 : optInert u.education = true
                      · by_cases h12 : (heurDt u.created_at || pydDtOk u.created_at) = true
                        · simp [vUserResponse, vStrF, vOptStrF_eq, vDtF_eq, userReadOk,
                                pubView, h1, h2, h3, h4, h5, h6, h7, h8, h9, h10, h11, h12]
                        · simp [vUserResponse, vStrF, vOptStrF_eq, vDtF_eq, userReadOk,
                                h1, h2, h3, h4, h5, h6, h7, h8, h9, h10, h11, h12]
                      · simp [vUserResponse, vStrF, vOptStrF_eq, userReadOk,
                              h1, h2, h3, h4, h5, h6, h7, h8, h9, h10, h11]
                    · simp [vUserResponse, vStrF, vOptStrF_eq, userReadOk,
                            h1, h2, h3, h4, h5, h6, h7, h8, h9, h10]
                  · simp [vUserResponse, vStrF, vOptStrF_eq, userReadOk,
                          h1, h2, h3, h4, h5, h6, h7, h8, h9]
                · simp [vUserResponse, vStrF, vOptStrF_eq, userReadOk,
                        h1, h2, h3, h4, h5, h6, h7, h8]
              · simp [vUserResponse, vStrF, vOptStrF_eq, userReadOk,
                      h1, h2, h3, h4, h5, h6, h7]
            · simp [vUserResponse, vStrF, vOptStrF_eq, userReadOk, h1, h2, h3, h4, h5, h6]
          · simp [vUserResponse, vStrF, vOptStrF_eq, userReadOk, h1, h2, h3, h4, h5]

theorem vJobResponse_eq (j : JobDoc) :
    vJobResponse j = if jobReadOk j then Except.ok (jobView j) else Except.error 500 := by
  by_cases h1 : heurDt j.id = true
  · simp [vJobResponse, vStrF, jobReadOk, h1]
  · by_cases h2 : heurDt j.title = true
    · simp [vJobResponse, vStrF, jobReadOk, h1, h2]
    · by_cases h3 : heurDt j.company = true
      · simp [vJobResponse, vStrF, jobReadOk, h1, h2, h3]
      · by_cases h4 : heurDt j.location = true
        · simp [vJobResponse, vStrF, jobReadOk, h1, h2, h3, h4]
        · by_cases h5 : heurDt j.job_type = true
          · simp [vJobResponse, vStrF, jobReadOk, h1, h2, h3, h4, h5]
          · by_cases h6 : optInert j.salary_range = true
            · by_cases h7 : heurDt j.description = true
              · simp [vJobResponse, vStrF, vOptStrF_eq, jobReadOk, h1, h2, h3, h4, h5, h6, h7]
              · by_cases h8 : heurDt j.employer_id = true
                · simp [vJobResponse, vStrF, vOptStrF_eq, jobReadOk,
                        h1, h2, h3, h4, h5, h6, h7, h8]
                · by_cases h9 : (heurDt j.posted_at || pydDtOk j.posted_at) = true
                  · by_cases h10 : heurDt j.status = true
                    · simp [vJobResponse, vStrF, vOptStrF_eq, vDtF_eq, jobReadOk,
                            h1, h2, h3, h4, h5, h6, h7, h8, h9, h10]
                    · simp [vJobResponse, vStrF, vOptStrF_eq, vDtF_eq, jobReadOk, jobView,
                            h1, h2, h3, h4, h5, h6, h7, h8, h9, h10]
                  · simp [vJobResponse, vStrF, vOptStrF_eq, vDtF_eq, jobReadOk,
                          h1, h2, h3, h4, h5, h6, h7, h8, h9]
            · simp [vJobResponse, vStrF, vOptStrF_eq, jobReadOk, h1, h2, h3, h4, h5, h6]

theorem exMapM_ok_mem {f : α → Except Nat β} :
    ∀ {xs : List α} {ys : List β}, exMapM f xs = .ok ys → ∀ y ∈ ys, ∃ x ∈ xs, f x = .ok y := by
  intro xs
  induction xs with
  | nil =>
      intro ys h y hy
      simp only [exMapM] at h
      cases h
      simp at hy
  | cons x xs ih =>
      intro ys h y hy
      simp only [exMapM] at h
      cases hfx : f x with
      | error e => rw [hfx] at h; simp at h
      | ok b =>
          rw [hfx] at h
          simp only [exBind_ok] at h
          cases hrest : exMapM f xs with
          | error e => rw [hrest] at h; simp at h
          | ok bs =>
              rw [hrest] at h
              simp only [exBind_ok] at h
              cases h
              rcases List.mem_cons.mp hy with h | h
              · exact ⟨x, List.mem_cons_self x xs, h ▸ hfx⟩
              · obtain ⟨x2, hx2, hfx2⟩ := ih hrest y h
                exact ⟨x2, List.mem_cons_of_mem x hx2, hfx2⟩

theorem mem_insertDesc {key : α → Str} {x a : α} :
    ∀ {l : List α}, a ∈ insertDesc key x l ↔ a = x ∨ a ∈ l := by
  intro l
  induction l with
  | nil => simp [insertDesc]
  | cons y ys ih =>
      simp only [insertDesc]
      by_cases h : strLt (key y) (key x) = true
      · rw [if_pos h]
        simp only [List.mem_cons]
      · rw [if_neg h]
        simp only [List.mem_cons, ih]
        tauto

theorem rmatch_emp : ∀ v : Str, Regex.rmatch .emp v = false
  | [] => rfl
  | _ :: cs => by
      simp only [Regex.rmatch, Regex.deriv]
      exact rmatch_emp cs

theorem rmatch_alt : ∀ (r s : Regex) (v : Str),
    Regex.rmatch (.alt r s) v = (Regex.rmatch r v || Regex.rmatch s v)
  | _, _, [] => rfl
  | r, s, c :: cs => by
      simp only [Regex.rmatch, Regex.deriv]
      exact rmatch_alt (r.deriv c) (s.deriv c) cs

theorem rmatch_comp_emp : ∀ (r : Regex) (v : Str), Regex.rmatch (.comp .emp r) v = false
  | _, [] => by simp [Regex.rmatch, Regex.nullable]
  | r, c :: cs => by
      simp only [Regex.rmatch, Regex.deriv, Regex.nullable, Bool.false_eq_true, if_false]
      exact rmatch_comp_emp r cs

theorem rmatch_comp_eps : ∀ (r : Regex) (v : Str),
    Regex.rmatch (.comp .eps r) v = Regex.rmatch r v
  | _, [] => by simp [Regex.rmatch, Regex.nullable]
  | r, c :: cs => by
      simp only [Regex.rmatch, Regex.deriv, Regex.nullable, if_true]
      rw [rmatch_alt, rmatch_comp_emp]
      simp

/-- A literal pattern matches exactly the strings that agree with it up
to ASCII case. -/
theorem rmatch_litR : ∀ (v s : Str),
    Regex.rmatch (litR s) v = decide (v.map Char.toLower = s.map Char.toLower)
  | [], s => by
      cases s <;> simp [Regex.rmatch, litR, Regex.nullable]
  | c :: cs, s => by
      cases s with
      | nil =>
          simp only [litR, Regex.rmatch, Regex.deriv, rmatch_emp]
          simp
      | cons a as =>
          simp only [litR, Regex.rmatch, Regex.deriv, Regex.nullable, Bool.false_eq_true, if_false]
          by_cases h : a.toLower = c.toLower
          · rw [if_pos h, rmatch_comp_eps, rmatch_litR cs as]
            simp [List.cons.injEq, h.symm]
          · rw [if_neg h, rmatch_comp_emp]
            have : ¬c.toLower = a.toLower := fun hh => h hh.symm
            simp [List.cons.injEq, this]

/-- Unanchored search for a literal pattern is exactly case-insensitive
substring occurrence. -/
theorem rexSearch_litR (s t : Str) : rexSearch (litR s) t = ciInf s t := by
  rw [Bool.eq_iff_iff]
  constructor
  · intro h
    obtain ⟨suf, hsuf, h2⟩ := List.any_eq_true.mp h
    obtain ⟨pre, hpre, h3⟩ := List.any_eq_true.mp h2
    rw [rmatch_litR] at h3
    have hmap : pre.map Char.toLower = s.map Char.toLower := of_decide_eq_true h3
    have hinf : pre <:+: t :=
      (((List.mem_inits _ _).mp hpre).isInfix).trans (((List.mem_tails _ _).mp hsuf).isInfix)
    have hmapped : pre.map Char.toLower <:+: t.map Char.toLower := hinf.map _
    rw [hmap] at hmapped
    exact decide_eq_true hmapped
  · intro h
    have hinf : s.map Char.toLower <:+: t.map Char.toLower := of_decide_eq_true h
    obtain ⟨l₁, l₂, hdec⟩ := hinf
    have hmid : ((t.drop l₁.length).take s.length).map Char.toLower = s.map Char.toLower := by
      rw [List.map_take, List.map_drop, ← hdec, List.append_assoc, List.drop_left]
      exact List.take_left' (List.length_map _ _)
    have hsub : (t.drop l₁.length).take s.length <:+: t :=
      ((List.take_prefix _ _).isInfix).trans ((List.drop_suffix _ _).isInfix)
    obtain ⟨a, b, hab⟩ := hsub
    refine List.any_eq_true.mpr ⟨(t.drop l₁.length).take s.length ++ b, ?_, ?_⟩
    · refine (List.mem_tails _ _).mpr ⟨a, ?_⟩
      rw [← List.append_assoc]
      exact hab
    · refine List.any_eq_true.mpr ⟨(t.drop l₁.length).take s.length, ?_, ?_⟩
      · exact (List.mem_inits _ _).mpr ⟨b, rfl⟩
      · rw [rmatch_litR]
        exact decide_eq_true hmid

/-- On a metacharacter-free pattern the compiler just accumulates
literal characters. -/
theorem pLoop_lit : ∀ (s : Str) (alts cats : List Regex),
    (∀ c ∈ s, metaChar c = false) →
    pLoop s alts cats [] = some (finishAlt alts ((s.map Regex.chr).reverse ++ cats))
  | [], alts, cats, _ => by simp [pLoop]
  | c :: rest, alts, cats, h => by
      have hc : metaChar c = false := h c (List.mem_cons_self c rest)
      have hrest : ∀ x ∈ rest, metaChar x = false := fun x hx => h x (List.mem_cons_of_mem c hx)
      have n1 : ¬c = '.' := fun e => by simp [metaChar, e] at hc
      have n2 : ¬c = '*' := fun e => by simp [metaChar, e] at hc
      have n3 : ¬c = '+' := fun e => by simp [metaChar, e] at hc
      have n4 : ¬c = '?' := fun e => by simp [metaChar, e] at hc
      have n5 : ¬c = '|' := fun e => by simp [metaChar, e] at hc
      have n6 : ¬c = '(' := fun e => by simp [metaChar, e] at hc
      have n7 : ¬c = ')' := fun e => by simp [metaChar, e] at hc
      have n8 : ¬c = '\\' := fun e => by simp [metaChar, e] at hc
      have n9 : ¬c = '[' := fun e => by simp [metaChar, e] at hc
      have n10 : ¬c = ']' := fun e => by simp [metaChar, e] at hc
      have n11 : ¬c = '{' := fun e => by simp [metaChar, e] at hc
      have n12 : ¬c = '}' := fun e => by simp [metaChar, e] at hc
      have n13 : ¬c = '^' := fun e => by simp [metaChar, e] at hc
      have n14 : ¬c = '$' := fun e => by simp [metaChar, e] at hc
      have hbr : ¬(c = '[' ∨ c = ']' ∨ c = '{' ∨ c = '}' ∨ c = '^' ∨ c = '$') := by
        simp [n9, n10, n11, n12, n13, n14]
      rw [pLoop.eq_def]
      simp only []
      rw [if_neg n6, if_neg n7, if_neg n5, if_neg n2, if_neg n3, if_neg n4, if_neg n8,
          if_neg hbr, if_neg n1]
      rw [pLoop_lit rest alts (.chr c :: cats) hrest]
      simp [List.reverse_cons, List.append_assoc]

theorem mem_sortDesc {key : α → Str} {a : α} :
    ∀ {l : List α}, a ∈ sortDesc key l ↔ a ∈ l := by
  intro l
  induction l with
  | nil => simp [sortDesc]
  | cons y ys ih =>
      simp only [sortDesc, List.foldr_cons]
      rw [show List.foldr (insertDesc key) [] ys = sortDesc key ys from rfl]
      rw [mem_insertDesc, ih, List.mem_cons]

/-- A metacharacter-free pattern compiles to its literal regex. -/
theorem parseRegex_lit (s : Str) (h : ∀ c ∈ s, metaChar c = false) :
    parseRegex s = some (litR s) := by
  rw [parseRegex, pLoop_lit s [] [] h, List.append_nil]
  have hfc : ∀ t : Str, finishCat ((t.map Regex.chr).reverse) = litR t := by
    intro t
    rw [finishCat, List.foldl_reverse]
    induction t with
    | nil => rfl
    | cons c cs ih => simp only [List.map_cons, List.foldr_cons, litR, ih]
  rw [show finishAlt [] ((s.map Regex.chr).reverse) =
        finishCat ((s.map Regex.chr).reverse) from rfl, hfc]

/-! ### Claim theorems -/

/-- C3: registering with a taken email fails with 400 and leaves the
users collection unchanged; otherwise exactly the new user (with the
generated id and timestamp) is stored and its public view returned, and
the response never depends on the submitted password. -/
theorem register_spec (db : DB) (d : UserCreate) (nid now : Str) :
    ((∃ u, db.users.find? (fun u => u.email = d.email) = some u) →
        (register_user db d nid now).1 = .error 400 ∧
        (register_user db d nid now).2 = db) ∧
    (db.users.find? (fun u => u.email = d.email) = none →
        (register_user db d nid now).2.users = db.users ++
          [{ id := nid, email := d.email, password := d.password, name := d.name,
             user_type := d.user_type, profile_image := none, title := none,
             location := none, bio := none, company := none, skills := [],
             experience := none, education := none, resume := none, created_at := now }] ∧
        (register_user db d nid now).1 =
          .ok { id := nid, email := d.email, name := d.name, user_type := d.user_type,
                profile_image := none, title := none, location := none, bio := none,
                company := none, skills := [], experience := none, education := none,
                created_at := now }) ∧
    (∀ p, (register_user db { d with password := p } nid now).1 =
        (register_user db d nid now).1) := by
  refine ⟨?_, ?_, ?_⟩
  · rintro ⟨u, hu⟩
    simp [register_user, hu]
  · intro h
    simp [register_user, h, pubView]
  · intro p
    simp only [register_user]
    cases hf : db.users.find? (fun u => u.email = d.email) <;> simp [pubView]

/-- Witness for C3 at a concrete store: a fresh email registers and a
password change does not alter the response. -/
theorem register_spec_witness :
    (register_user { users := [], jobs := [], applications := [] }
        { email := chars "a@b.c", password := chars "pw", name := chars "Alice",
          user_type := chars "job_seeker" } (chars "u1")
        (chars "2024-01-01T00:00:00+00:00")).1 =
      .ok { id := chars "u1", email := chars "a@b.c", name := chars "Alice",
            user_type := chars "job_seeker", profile_image := none, title := none,
            location := none, bio := none, company := none, skills := [],
            experience := none, education := none,
            created_at := chars "2024-01-01T00:00:00+00:00" } := by
  have h := (register_spec { users := [], jobs := [], applications := [] }
    { email := chars "a@b.c", password := chars "pw", name := chars "Alice",
      user_type := chars "job_seeker" } (chars "u1")
    (chars "2024-01-01T00:00:00+00:00")).2.1 (by decide)
  exact h.2

/-- C7 (amended): login fails 401 when no stored user matches email and
password exactly; when the first matching user's stored fields survive
the timestamp read heuristic the public view (with the registration id)
is returned; when they do not, the request fails with a server error. -/
theorem login_spec (db : DB) (d : UserLogin) :
    (db.users.find? (fun u => u.email = d.email && u.password = d.password) = none →
        login_user db d = .error 401) ∧
    (∀ u, db.users.find? (fun u => u.email = d.email && u.password = d.password) = some u →
        (userReadOk u = true → login_user db d = .ok (pubView u)) ∧
        (userReadOk u = false → login_user db d = .error 500)) := by
  constructor
  · intro h
    simp [login_user, h]
  · intro u hu
    constructor <;> intro hok <;> simp [login_user, hu, vUserResponse_eq, hok]

/-- A well-formed stored user used by concrete instantiations. -/
def aliceDoc : UserDoc :=
  { id := chars "u1", email := chars "a@b.c", password := chars "pw",
    name := chars "Alice", user_type := chars "job_seeker",
    profile_image := none, title := none, location := none, bio := none,
    company := none, skills := [], experience := none, education := none,
    resume := none, created_at := chars "2024-01-01T00:00:00+00:00" }

/-- A stored user whose name is shaped like an ISO timestamp, so the
read heuristic converts it. -/
def tNameDoc : UserDoc := { aliceDoc with name := chars "2020-01-01T00:00:00" }

/-- Witness for C7 at a concrete store: matching credentials return the
stored user's public view. -/
theorem login_spec_witness :
    login_user { users := [aliceDoc], jobs := [], applications := [] }
      { email := chars "a@b.c", password := chars "pw" } = .ok (pubView aliceDoc) := by
  have h := (login_spec { users := [aliceDoc], jobs := [], applications := [] }
    { email := chars "a@b.c", password := chars "pw" }).2 aliceDoc (by decide)
  exact h.1 (by decide)

/-- Counterexample to C7 as stated: a user whose stored name is an
ISO-timestamp-shaped string matches the supplied credentials, yet the
login request fails with a server error instead of succeeding. -/
theorem login_cex :
    ((({ users := [tNameDoc], jobs := [], applications := [] } : DB).users.find?
        (fun u => u.email = chars "a@b.c" && u.password = chars "pw")).isSome = true) ∧
    login_user { users := [tNameDoc], jobs := [], applications := [] }
      { email := chars "a@b.c", password := chars "pw" } = .error 500 := by
  constructor
  · decide
  · decide

/-- C1: applying twice for the same (job_id, applicant_id) fails with
400 and leaves the store unchanged; a first application appends exactly
one pending record, and each enrichment field is the corresponding
lookup's result — absent exactly when the lookup misses. -/
theorem apply_spec (db : DB) (d : ApplicationCreate) (aid nid now : Str) :
    ((∃ a, db.applications.find?
        (fun a => a.job_id = d.job_id && a.applicant_id = aid) = some a) →
        (apply_for_job db d aid nid now).1 = .error 400 ∧
        (apply_for_job db d aid nid now).2 = db) ∧
    (db.applications.find? (fun a => a.job_id = d.job_id && a.applicant_id = aid) = none →
        (apply_for_job db d aid nid now).2 =
          { db with applications := db.applications ++
              [{ id := nid, job_id := d.job_id, applicant_id := aid,
                 cover_letter := d.cover_letter, status := chars "pending",
                 applied_at := now, notes := none }] } ∧
        (apply_for_job db d aid nid now).1 =
          .ok { id := nid, job_id := d.job_id, applicant_id := aid,
                cover_letter := d.cover_letter, status := chars "pending",
                applied_at := now,
                job_title := (db.jobs.find? (fun j => j.id = d.job_id)).map
                  (fun j => j.title),
                company := (db.jobs.find? (fun j => j.id = d.job_id)).map
                  (fun j => j.company),
                applicant_name := (db.users.find? (fun u => u.id = aid)).map
                  (fun u => u.name) } ∧
        (∀ r, (apply_for_job db d aid nid now).1 = .ok r →
          ((r.job_title = none ↔ db.jobs.find? (fun j => j.id = d.job_id) = none) ∧
           (r.company = none ↔ db.jobs.find? (fun j => j.id = d.job_id) = none) ∧
           (r.applicant_name = none ↔ db.users.find? (fun u => u.id = aid) = none)))) := by
  constructor
  · rintro ⟨a, ha⟩
    simp [apply_for_job, ha]
  · intro h
    refine ⟨?_, ?_, ?_⟩
    · simp [apply_for_job, h]
    · simp [apply_for_job, h]
    · intro r hr
      simp only [apply_for_job, h] at hr
      cases hr
      simp [Option.map_eq_none]

/-- Witness for C1 at a concrete store: a first application is stored
as pending, with the job enrichment absent (no such job) and the
applicant enrichment present. -/
theorem apply_spec_witness :
    (apply_for_job { users := [aliceDoc], jobs := [], applications := [] }
        { job_id := chars "j9", cover_letter := none } (chars "u1") (chars "a1")
        (chars "2024-01-02T00:00:00+00:00")).1 =
      .ok { id := chars "a1", job_id := chars "j9", applicant_id := chars "u1",
            cover_letter := none, status := chars "pending",
            applied_at := chars "2024-01-02T00:00:00+00:00",
            job_title := none, company := none,
            applicant_name := some (chars "Alice") } := by
  have h := (apply_spec { users := [aliceDoc], jobs := [], applications := [] }
    { job_id := chars "j9", cover_letter := none } (chars "u1") (chars "a1")
    (chars "2024-01-02T00:00:00+00:00")).2 (by decide)
  exact h.2.1

/-- C10 (amended): apply-for-job checks neither the existence nor the
status of the referenced job: with no prior duplicate the application
is always stored; when no job has the id the job enrichment fields are
absent, and when a job with the id exists — whatever its status — they
are present. -/
theorem apply_no_reference_check (db : DB) (d : ApplicationCreate) (aid nid now : Str)
    (hnodup : db.applications.find?
      (fun a => a.job_id = d.job_id && a.applicant_id = aid) = none) :
    (apply_for_job db d aid nid now).2.applications = db.applications ++
      [{ id := nid, job_id := d.job_id, applicant_id := aid,
         cover_letter := d.cover_letter, status := chars "pending",
         applied_at := now, notes := none }] ∧
    (db.jobs.find? (fun j => j.id = d.job_id) = none →
        ∃ r, (apply_for_job db d aid nid now).1 = .ok r ∧
          r.job_title = none ∧ r.company = none) ∧
    (∀ j, db.jobs.find? (fun j => j.id = d.job_id) = some j →
        ∃ r, (apply_for_job db d aid nid now).1 = .ok r ∧
          r.job_title = some j.title ∧ r.company = some j.company) := by
  refine ⟨?_, ?_, ?_⟩
  · simp [apply_for_job, hnodup]
  · intro hjob
    refine ⟨{ id := nid, job_id := d.job_id, applicant_id := aid,
              cover_letter := d.cover_letter, status := chars "pending",
              applied_at := now, job_title := none, company := none,
              applicant_name := (db.users.find? (fun u => u.id = aid)).map
                (fun u => u.name) }, ?_, rfl, rfl⟩
    simp [apply_for_job, hnodup, hjob]
  · intro j hjob
    refine ⟨{ id := nid, job_id := d.job_id, applicant_id := aid,
              cover_letter := d.cover_letter, status := chars "pending",
              applied_at := now, job_title := some j.title, company := some j.company,
              applicant_name := (db.users.find? (fun u => u.id = aid)).map
                (fun u => u.name) }, ?_, rfl, rfl⟩
    simp [apply_for_job, hnodup, hjob]

/-- A non-active stored job used by concrete instantiations. -/
def closedJob : JobDoc :=
  { id := chars "jc", title := chars "Closed role", company := chars "Acme",
    location := chars "NY", job_type := chars "full-time", salary_range := none,
    description := chars "old", requirements := [], benefits := [],
    employer_id := chars "e1", posted_at := chars "2024-01-01T00:00:00+00:00",
    expires_at := none, status := chars "closed" }

/-- Witness for C10 at a concrete store: applying against a job id that
references nothing still succeeds and stores the pending record. -/
theorem apply_no_reference_check_witness :
    (apply_for_job { users := [], jobs := [], applications := [] }
        { job_id := chars "ghost", cover_letter := none } (chars "u2") (chars "a2")
        (chars "2024-01-03T00:00:00+00:00")).2.applications =
      [{ id := chars "a2", job_id := chars "ghost", applicant_id := chars "u2",
         cover_letter := none, status := chars "pending",
         applied_at := chars "2024-01-03T00:00:00+00:00", notes := none }] := by
  have h := apply_no_reference_check { users := [], jobs := [], applications := [] }
    { job_id := chars "ghost", cover_letter := none } (chars "u2") (chars "a2")
    (chars "2024-01-03T00:00:00+00:00") (by decide)
  exact h.1

/-- Counterexample to C10 as stated: applying against a stored but
non-active (closed) job succeeds, yet the job enrichment fields are
present in the response, not absent. -/
theorem apply_cex :
    closedJob.status ≠ chars "active" ∧
    (apply_for_job { users := [], jobs := [closedJob], applications := [] }
        { job_id := chars "jc", cover_letter := none } (chars "u3") (chars "a3")
        (chars "2024-01-04T00:00:00+00:00")).1 =
      .ok { id := chars "a3", job_id := chars "jc", applicant_id := chars "u3",
            cover_letter := none, status := chars "pending",
            applied_at := chars "2024-01-04T00:00:00+00:00",
            job_title := some (chars "Closed role"), company := some (chars "Acme"),
            applicant_name := none } := by
  constructor
  · decide
  · decide

/-- C6: for the employer dashboard, total_applications counts exactly
the applications whose job_id lies among the employer's job ids (the
empty-guard in the code changes nothing), and an employer with no jobs
gets all three counters zero. -/
theorem dashboard_employer_spec (db : DB) (uid : Str) :
    get_dashboard_stats db uid (chars "employer") =
      .employerR (db.jobs.filter (fun j => j.employer_id = uid)).length
        (db.jobs.filter (fun j => j.employer_id = uid && j.status = chars "active")).length
        (db.applications.filter (fun a =>
          ((db.jobs.filter (fun j => j.employer_id = uid)).map (fun j => j.id)).contains
            a.job_id)).length ∧
    (db.jobs.filter (fun j => j.employer_id = uid) = [] →
        get_dashboard_stats db uid (chars "employer") = .employerR 0 0 0) := by
  have hne : ¬(chars "employer" = chars "job_seeker") := by decide
  constructor
  · simp only [get_dashboard_stats, if_neg hne]
    by_cases he :
        ((db.jobs.filter (fun j => j.employer_id = uid)).map (fun j => j.id)).isEmpty = true
    · rw [if_pos he]
      have h0 : (db.jobs.filter (fun j => j.employer_id = uid)).map (fun j => j.id) = [] :=
        List.isEmpty_iff.mp he
      rw [h0]
      simp
    · rw [if_neg he]
  · intro h
    have h2 := List.filter_eq_nil_iff.mp h
    simp only [get_dashboard_stats, if_neg hne, h]
    simp only [List.length_nil, List.map_nil, List.isEmpty_nil, if_pos]
    have h3 : db.jobs.filter (fun j => j.employer_id = uid && j.status = chars "active") = [] := by
      rw [List.filter_eq_nil_iff]
      intro a ha
      simp only [Bool.and_eq_true, decide_eq_true_eq, not_and]
      intro hemp _
      exact absurd hemp (by simpa using h2 a ha)
    rw [h3]
    rfl

/-- Witness for C6 at a concrete store: an employer with no jobs gets
all three counters zero. -/
theorem dashboard_employer_spec_witness :
    get_dashboard_stats { users := [], jobs := [], applications := [] }
      (chars "e7") (chars "employer") = .employerR 0 0 0 :=
  (dashboard_employer_spec { users := [], jobs := [], applications := [] }
    (chars "e7")).2 (by decide)

/-- C8: whatever request runs, the applications collection is only ever
extended, every record it gains has status "pending", and every
pre-existing record (status and notes included) is preserved verbatim. -/
theorem applications_pending_invariant (db : DB) (op : Op) :
    ∃ t, (runOp db op).2.applications = db.applications ++ t ∧
      ∀ a ∈ t, a.status = chars "pending" := by
  cases op with
  | register d nid now =>
      refine ⟨[], ?_, by simp⟩
      simp only [runOp, register_user]
      cases db.users.find? (fun u => u.email = d.email) <;> simp
  | login d => exact ⟨[], by simp [runOp], by simp⟩
  | getUser uid => exact ⟨[], by simp [runOp], by simp⟩
  | updateProfile uid patch =>
      refine ⟨[], ?_, by simp⟩
      simp only [runOp, update_user_profile]
      cases db.users.find? (fun u => u.id = uid) <;> simp
  | createJob d eid nid now => exact ⟨[], by simp [runOp, create_job], by simp⟩
  | getJobs skip limit s l jt => exact ⟨[], by simp [runOp], by simp⟩
  | getJob jid => exact ⟨[], by simp [runOp], by simp⟩
  | getEmployerJobs eid => exact ⟨[], by simp [runOp], by simp⟩
  | applyJob d aid nid now =>
      cases hf : db.applications.find?
          (fun a => a.job_id = d.job_id && a.applicant_id = aid) with
      | some a =>
          refine ⟨[], ?_, by simp⟩
          simp [runOp, apply_for_job, hf]
      | none =>
          refine ⟨[{ id := nid, job_id := d.job_id, applicant_id := aid,
                     cover_letter := d.cover_letter, status := chars "pending",
                     applied_at := now, notes := none }], ?_, ?_⟩
          · simp [runOp, apply_for_job, hf]
          · intro a ha
            simp only [List.mem_singleton] at ha
            rw [ha]
  | getUserApplications uid => exact ⟨[], by simp [runOp], by simp⟩
  | getJobApplications jid => exact ⟨[], by simp [runOp], by simp⟩
  | dashboardStats uid utype => exact ⟨[], by simp [runOp], by simp⟩

/-- The store with every stored user's resume rewritten by `g`. -/
def mapResume (db : DB) (g : UserDoc → Option Str) : DB :=
  { users := db.users.map (fun u => { u with resume := g u }),
    jobs := db.jobs, applications := db.applications }

theorem find?_resume (us : List UserDoc) (g : UserDoc → Option Str) (p : UserDoc → Bool)
    (hp : ∀ u, p { u with resume := g u } = p u) :
    (us.map (fun u => { u with resume := g u })).find? p =
      (us.find? p).map (fun u => { u with resume := g u }) := by
  rw [List.find?_map]
  have hpe : (p ∘ fun u => { u with resume := g u }) = p := funext fun u => hp u
  rw [hpe]

/-- C9: no response of any endpoint depends on any stored user's resume
— the public view omits resume (alongside password), and no other
response surfaces it either. -/
theorem resume_never_in_response (db : DB) (g : UserDoc → Option Str) (op : Op) :
    (runOp (mapResume db g) op).1 = (runOp db op).1 := by
  cases op with
  | register d nid now =>
      simp only [runOp]
      have : register_user (mapResume db g) d nid now =
          ((register_user db d nid now).1,
           (register_user (mapResume db g) d nid now).2) := by
        simp only [register_user, mapResume]
        rw [find?_resume db.users g (fun u => u.email = d.email) (fun u => rfl)]
        cases db.users.find? (fun u => u.email = d.email) <;> rfl
      rw [this]
  | login d =>
      simp only [runOp]
      have : login_user (mapResume db g) d = login_user db d := by
        simp only [login_user, mapResume]
        rw [find?_resume db.users g
          (fun u => u.email = d.email && u.password = d.password) (fun u => rfl)]
        cases db.users.find? (fun u => u.email = d.email && u.password = d.password) <;> rfl
      rw [this]
  | getUser uid =>
      simp only [runOp]
      have : get_user (mapResume db g) uid = get_user db uid := by
        simp only [get_user, mapResume]
        rw [find?_resume db.users g (fun u => u.id = uid) (fun u => rfl)]
        cases db.users.find? (fun u => u.id = uid) <;> rfl
      rw [this]
  | updateProfile uid patch =>
      simp only [runOp]
      have : (update_user_profile (mapResume db g) uid patch).1 =
          (update_user_profile db uid patch).1 := by
        simp only [update_user_profile, mapResume]
        rw [find?_resume db.users g (fun u => u.id = uid) (fun u => rfl)]
        cases db.users.find? (fun u => u.id = uid) <;> rfl
      cases h1 : update_user_profile (mapResume db g) uid patch
      cases h2 : update_user_profile db uid patch
      rw [h1, h2] at this
      simp only at this
      rw [this]
  | createJob d eid nid now => rfl
  | getJobs skip limit s l jt => rfl
  | getJob jid => rfl
  | getEmployerJobs eid => rfl
  | applyJob d aid nid now =>
      simp only [runOp]
      have : (apply_for_job (mapResume db g) d aid nid now).1 =
          (apply_for_job db d aid nid now).1 := by
        simp only [apply_for_job, mapResume]
        rw [find?_resume db.users g (fun u => u.id = aid) (fun u => rfl), Option.map_map]
        cases db.applications.find?
          (fun a => a.job_id = d.job_id && a.applicant_id = aid) <;> rfl
      cases h1 : apply_for_job (mapResume db g) d aid nid now
      cases h2 : apply_for_job db d aid nid now
      rw [h1, h2] at this
      simp only at this
      rw [this]
  | getUserApplications uid => rfl
  | getJobApplications jid =>
      simp only [runOp]
      have he : enrichJobApp (mapResume db g) jid = enrichJobApp db jid := by
        funext a
        simp only [enrichJobApp, mapResume]
        rw [find?_resume db.users g (fun u => u.id = a.applicant_id) (fun u => rfl),
          Option.map_map]
        rfl
      rw [show get_job_applications (mapResume db g) jid =
            exMapM (enrichJobApp (mapResume db g) jid)
              (sortDesc (fun a => a.applied_at)
                (db.applications.filter (fun a => a.job_id = jid))) from rfl, he]
      rfl
  | dashboardStats uid utype => rfl

/-- C2 (amended): every job in a successfully returned page has status
"active", whatever the filters; and a supplied, non-empty job_type
filter is matched exactly by every returned job (an empty job_type
parameter is falsy in Python and adds no clause). -/
theorem get_jobs_filters (db : DB) (skip limit : Nat) (s l jt : Option Str)
    (page : List JobResponse) (h : get_jobs db skip limit s l jt = .ok page) :
    ∀ r ∈ page, r.status = chars "active" ∧
      (∀ t, jt = some t → t ≠ [] → r.job_type = t) := by
  intro r hr
  simp only [get_jobs] at h
  cases hs : compileF s with
  | error e => rw [hs] at h; simp at h
  | ok sR =>
      rw [hs] at h
      simp only [exBind_ok] at h
      cases hl : compileF l with
      | error e => rw [hl] at h; simp at h
      | ok lR =>
          rw [hl] at h
          simp only [exBind_ok] at h
          obtain ⟨doc, hdoc, hv⟩ := exMapM_ok_mem h r hr
          have hmem : doc ∈ db.jobs.filter (matchesQuery sR lR (jtF jt)) := by
            have h1 : doc ∈ (sortDesc (fun j => j.posted_at)
                (db.jobs.filter (matchesQuery sR lR (jtF jt)))).drop skip := by
              by_cases hlim : limit = 0
              · rw [if_pos hlim] at hdoc
                exact hdoc
              · rw [if_neg hlim] at hdoc
                exact List.mem_of_mem_take hdoc
            exact mem_sortDesc.mp (List.mem_of_mem_drop h1)
          have hq := (List.mem_filter.mp hmem).2
          simp only [matchesQuery, Bool.and_eq_true, decide_eq_true_eq] at hq
          rw [vJobResponse_eq] at hv
          by_cases hro : jobReadOk doc = true
          · rw [if_pos hro] at hv
            injection hv with hv2
            subst hv2
            refine ⟨hq.1.1.1, ?_⟩
            intro t hjt hne
            have hjt2 : jtF jt = some t := by
              rw [hjt]
              simp [jtF, hne]
            rw [hjt2] at hq
            simpa using hq.2
          · rw [if_neg hro] at hv
            cases hv

/-- An ordinary active job used by concrete instantiations. -/
def devJob : JobDoc :=
  { id := chars "j1", title := chars "Senior Developer", company := chars "Acme",
    location := chars "Remote", job_type := chars "full-time", salary_range := none,
    description := chars "Build things", requirements := [], benefits := [],
    employer_id := chars "e1", posted_at := chars "2024-01-01T00:00:00+00:00",
    expires_at := none, status := chars "active" }

/-- Witness for C2 at a concrete store. -/
theorem get_jobs_filters_witness :
    (jobView devJob).status = chars "active" ∧
    (jobView devJob).job_type = chars "full-time" := by
  have h := get_jobs_filters { users := [], jobs := [devJob], applications := [] }
    0 20 none none (some (chars "full-time")) [jobView devJob] (by decide)
  have h2 := h (jobView devJob) (List.mem_singleton.mpr rfl)
  exact ⟨h2.1, h2.2 (chars "full-time") rfl (by decide)⟩

/-- Counterexample to C2 as stated: with the job_type filter supplied
as the empty string, the query drops the clause and returns a job whose
job_type differs from the supplied filter value. -/
theorem get_jobs_cex :
    get_jobs { users := [], jobs := [devJob], applications := [] }
      0 20 none none (some []) = .ok [jobView devJob] ∧
    (jobView devJob).job_type ≠ ([] : Str) := by
  constructor
  · decide
  · decide

/-- C5 (amended): the search and location parameters are interpreted as
case-insensitive unanchored regexes, not plain substrings; for patterns
free of regex metacharacters the two coincide: such a pattern compiles
to its literal regex and the search clause holds exactly when the
pattern occurs case-insensitively inside title, company or description
(for location, inside location). -/
theorem search_literal_spec (s loc : Str) (j : JobDoc)
    (hs : ∀ c ∈ s, metaChar c = false) (hl : ∀ c ∈ loc, metaChar c = false) :
    parseRegex s = some (litR s) ∧
    (¬s = [] → compileF (some s) = .ok (some (litR s))) ∧
    searchHit (litR s) j =
      (ciInf s j.title || ciInf s j.company || ciInf s j.description) ∧
    (¬loc = [] → compileF (some loc) = .ok (some (litR loc))) ∧
    rexSearch (litR loc) j.location = ciInf loc j.location := by
  refine ⟨parseRegex_lit s hs, ?_, ?_, ?_, rexSearch_litR loc j.location⟩
  · intro hne
    simp only [compileF, List.isEmpty_iff, if_neg hne, parseRegex_lit s hs]
  · simp only [searchHit, rexSearch_litR]
  · intro hne
    simp only [compileF, List.isEmpty_iff, if_neg hne, parseRegex_lit loc hl]

/-- Witness for C5 at a concrete pattern and job: "dev" compiles to a
literal regex and its search clause agrees with case-insensitive
substring matching, holding on a job titled "Senior Developer". -/
theorem search_literal_spec_witness :
    compileF (some (chars "dev")) = .ok (some (litR (chars "dev"))) ∧
    searchHit (litR (chars "dev")) devJob = true := by
  have h := search_literal_spec (chars "dev") (chars "rem") devJob (by decide) (by decide)
  refine ⟨h.2.1 (by decide), ?_⟩
  rw [h.2.2.1]
  decide

/-- A job none of whose searchable fields contain a dot. -/
def xyzJob : JobDoc :=
  { id := chars "j2", title := chars "xyz", company := chars "co", location := chars "here",
    job_type := chars "full-time", salary_range := none, description := chars "plain",
    requirements := [], benefits := [], employer_id := chars "e1",
    posted_at := chars "2024-01-01T00:00:00+00:00", expires_at := none,
    status := chars "active" }

/-- Counterexample to C5 as stated: the pattern "." matches the job
(regex: any character) although "." does not occur as a substring,
case-insensitive or not, of its title, company or description. -/
theorem search_cex :
    get_jobs { users := [], jobs := [xyzJob], applications := [] }
      0 20 (some (chars ".")) none none = .ok [jobView xyzJob] ∧
    ciInf (chars ".") xyzJob.title = false ∧
    ciInf (chars ".") xyzJob.company = false ∧
    ciInf (chars ".") xyzJob.description = false := by
  refine ⟨by decide, by decide, by decide, by decide⟩

/-- C4 (amended): every payload field is returned unchanged by the
creation response unconditionally; the subsequent fetch-by-id also
returns them all unchanged provided the generated id is fresh and no
submitted string value is captured by the timestamp read heuristic
(a field that is, makes the fetch fail or alters it). -/
theorem create_then_get (db : DB) (d : JobCreate) (eid nid now : Str)
    (hfresh : ∀ j ∈ db.jobs, ¬j.id = nid)
    (hid : heurDt nid = false) (heid : heurDt eid = false)
    (ht : heurDt d.title = false) (hc : heurDt d.company = false)
    (hl : heurDt d.location = false) (hjt : heurDt d.job_type = false)
    (hd : heurDt d.description = false) (hsal : optInert d.salary_range = true)
    (hnow : heurDt now = true) :
    (create_job db d eid nid now).1 =
      { id := nid, title := d.title, company := d.company, location := d.location,
        job_type := d.job_type, salary_range := d.salary_range,
        description := d.description, requirements := d.requirements,
        benefits := d.benefits, employer_id := eid, posted_at := now,
        status := chars "active" } ∧
    get_job (create_job db d eid nid now).2 nid = .ok (create_job db d eid nid now).1 := by
  refine ⟨rfl, ?_⟩
  have hnone : db.jobs.find? (fun j => j.id = nid) = none :=
    List.find?_eq_none.mpr (fun j hj => by simpa using hfresh j hj)
  have hdoc : ((create_job db d eid nid now).2).jobs.find? (fun j => j.id = nid) =
      some { id := nid, title := d.title, company := d.company, location := d.location,
             job_type := d.job_type, salary_range := d.salary_range,
             description := d.description, requirements := d.requirements,
             benefits := d.benefits, employer_id := eid, posted_at := now,
             expires_at := none, status := chars "active" } := by
    simp only [create_job, List.find?_append, hnone, Option.none_or]
    simp
  simp only [get_job, hdoc]
  rw [vJobResponse_eq]
  have hro : jobReadOk
      { id := nid, title := d.title, company := d.company,
        location := d.location, job_type := d.job_type, salary_range := d.salary_range,
        description := d.description, requirements := d.requirements,
        benefits := d.benefits, employer_id := eid, posted_at := now,
        expires_at := none, status := chars "active" } = true := by
    simp [jobReadOk, hid, heid, ht, hc, hl, hjt, hd, hsal, hnow]
    decide
  rw [if_pos hro]
  rfl

/-- Witness for C4 at a concrete store: an ordinary payload round-trips
through create and fetch-by-id. -/
theorem create_then_get_witness :
    get_job (create_job { users := [], jobs := [], applications := [] }
        { title := chars "Senior Developer", company := chars "Acme",
          location := chars "Remote", job_type := chars "full-time",
          salary_range := some (chars "100k"), description := chars "Build things",
          requirements := [chars "lean"], benefits := [chars "coffee"] }
        (chars "e1") (chars "j1") (chars "2024-01-01T00:00:00+00:00")).2 (chars "j1") =
      .ok (create_job { users := [], jobs := [], applications := [] }
        { title := chars "Senior Developer", company := chars "Acme",
          location := chars "Remote", job_type := chars "full-time",
          salary_range := some (chars "100k"), description := chars "Build things",
          requirements := [chars "lean"], benefits := [chars "coffee"] }
        (chars "e1") (chars "j1") (chars "2024-01-01T00:00:00+00:00")).1 := by
  have h := create_then_get { users := [], jobs := [], applications := [] }
    { title := chars "Senior Developer", company := chars "Acme",
      location := chars "Remote", job_type := chars "full-time",
      salary_range := some (chars "100k"), description := chars "Build things",
      requirements := [chars "lean"], benefits := [chars "coffee"] }
    (chars "e1") (chars "j1") (chars "2024-01-01T00:00:00+00:00")
    (by simp) (by decide) (by decide) (by decide) (by decide) (by decide) (by decide)
    (by decide) (by decide) (by decide)
  exact h.2

/-- Counterexample to C4 as stated: a title shaped like an ISO
timestamp is stored, but the subsequent fetch-by-id fails with a server
error — the submitted field does not come back unchanged. -/
theorem create_then_get_cex :
    get_job (create_job { users := [], jobs := [], applications := [] }
        { title := chars "2020-01-01T00:00:00", company := chars "Acme",
          location := chars "NY", job_type := chars "full-time", salary_range := none,
          description := chars "desc", requirements := [], benefits := [] }
        (chars "e1") (chars "jj") (chars "2024-01-01T00:00:00+00:00")).2 (chars "jj") =
      .error 500 := by
  decide

end HireHub
